import Mathlib

/-!
Verification development for the personal reading-log application.

The definitions below are a shallow embedding of the program's core logic:
the ISBN metadata-resolution edge function
(`frontend/supabase/functions/isbn-lookup/index.ts`) and the reading-log
composable (`frontend/src/composables/useBookLog.js`, the Supabase-backed
version).  JavaScript machine numbers are modelled as `Int`/`Nat` (no value
in scope approaches 2^53, so JS number arithmetic is exact), nullable
values as `Option`, and the Supabase `books` / `calendar_overrides` /
`progress_events` tables as explicit lists threaded through each operation.
The current date (`today`) and the network providers are parameters.
HTTP/auth plumbing (CORS, Authorization headers) is elided: it belongs to
the excluded UI layer and no claim depends on it.
-/

namespace BookLog

/-- One row of the `books` table, as read and written by the composable.
Field names follow the source columns.  `entry_type` is `none` for plain
books (the column is nullable), `current_page` and the dates are nullable
columns. -/
structure Entry where
  isbn : String
  entry_type : Option String
  title : String
  authors : List String
  status : Option String
  backlog_order : Option Nat
  backlog_date : Option String
  started_date : Option String
  finished_date : Option String
  last_progress_date : Option String
  current_page : Option Int
  number_of_pages : Option Int
deriving DecidableEq, Repr

/-- One row of the `progress_events` table (migration `part_006`):
`isbn`, `date` (YYYY-MM-DD) and the signed page `delta`. -/
structure ProgressEventRow where
  isbn : String
  date : String
  delta : Int
deriving DecidableEq, Repr

/-- JS falsiness of a nullable string: `!s` is true for `null`/`undefined`
and for the empty string. -/
def jsFalsyStr (s : Option String) : Bool :=
  match s with
  | none => true
  | some v => v = ""

/-- JS `String.prototype.trim()`: strip whitespace from both ends
(implemented on the character list so that it evaluates by `decide`). -/
def jsTrim (s : String) : String :=
  String.mk (((s.data.dropWhile Char.isWhitespace).reverse.dropWhile
    Char.isWhitespace).reverse)

/-- JS `String.prototype.split(sep)` for a one-character separator:
every occurrence splits, and empty pieces are kept. -/
def splitChar (sep : Char) : List Char → List (List Char)
  | [] => [[]]
  | c :: rest =>
    if c = sep then [] :: splitChar sep rest
    else
      match splitChar sep rest with
      | g :: gs => (c :: g) :: gs
      | [] => [[c]]

/-- JS string `<=` (lexicographic on code units), on character lists. -/
def lexLeCh : List Char → List Char → Bool
  | [], _ => true
  | _ :: _, [] => false
  | a :: as, b :: bs =>
    if a.toNat < b.toNat then true
    else if b.toNat < a.toNat then false
    else lexLeCh as bs

/-- JS `s.slice(0, 10)` / `String(val).slice(0, 10)`. -/
def strTake (s : String) (n : Nat) : String :=
  String.mk (s.data.take n)

/- ## ISBN normalization and client submit guard -/

/-- The `.replace(/[\s-]/g, "")` normalization used by both the client
(`canSubmit`, `lookup`) and the edge function: drop whitespace and hyphens. -/
def normalizeIsbn (s : String) : String :=
  String.mk (s.data.filter (fun c => !(c.isWhitespace || c == '-')))

/-- The regex test `/^\d+$/.test(s)`: nonempty and all digits. -/
def regexAllDigits (s : String) : Bool :=
  !s.data.isEmpty && s.data.all Char.isDigit

/-- `canSubmit` from `useBookLog.js`: the cleaned identifier must be at
least 10 characters and purely numeric before the client will invoke the
lookup function. -/
def canSubmit (isbnInput : String) : Bool :=
  let cleaned := normalizeIsbn isbnInput
  decide (10 ≤ cleaned.length) && regexAllDigits cleaned

/- ## The isbn-lookup edge function -/

/-- The `volumeInfo` shape of a Google Books item, restricted to the fields
`extractBook` reads.  `pageCount` is `none` when the field is absent or not
a number (the source's `typeof` guard). -/
structure GoogleVolumeInfo where
  title : Option String
  authors : List String
  publisher : Option String
  thumbnail : Option String
  smallThumbnail : Option String
  categories : List String
  pageCount : Option Int
  publishedDate : Option String
  description : Option String
deriving DecidableEq, Repr

/-- The normalized record returned by the edge function. -/
structure BookRecord where
  isbn : String
  title : String
  authors : List String
  publishers : List String
  publish_date : Option String
  number_of_pages : Option Int
  cover_url : Option String
  subjects : List String
  description : Option String
deriving DecidableEq, Repr

/-- Outcome of the HTTP call to the Google Books volumes endpoint. -/
inductive GoogleResult where
  | httpError (status : Nat) (text : String)
  | ok (items : List GoogleVolumeInfo)

/-- The external providers, as oracles: the Google Books response for an
ISBN query, and the raw `number_of_pages` field of the Open Library
response (`none` when the request fails, is not ok, or the field is
absent). -/
structure Providers where
  google : String → GoogleResult
  openLibraryRaw : String → Option Int

/-- Which external provider a run of the handler called, in order. -/
inductive ProviderCall where
  | googleBooks
  | openLibrary
deriving DecidableEq, Repr

/-- A JSON response from the handler: an error body with an HTTP status,
or a normalized record. -/
inductive LookupResponse where
  | failure (msg : String) (status : Nat)
  | ok (r : BookRecord)
deriving DecidableEq, Repr

/-- The `http:` to `https:` thumbnail rewrite in `extractBook`. -/
def httpsify (url : String) : String :=
  if ("http:".data.isPrefixOf url.data) then String.mk ("https:".data ++ url.data.drop 5)
  else url

/-- The `description` normalization in `extractBook`: trim, and coerce the
empty string to null. -/
def normDescription (d : Option String) : Option String :=
  match d with
  | none => none
  | some s => if jsTrim s = "" then none else some (jsTrim s)

/-- `extractBook` from `isbn-lookup/index.ts`: normalize a Google Books
item into the common record shape. -/
def extractBook (vi : GoogleVolumeInfo) (isbn : String) : BookRecord :=
  let thumbnail :=
    match vi.thumbnail with
    | some t => some (httpsify t)
    | none =>
      match vi.smallThumbnail with
      | some t => some (httpsify t)
      | none => none
  { isbn := isbn
    title := vi.title.getD "Unknown"
    authors := if vi.authors.isEmpty then ["Unknown"] else vi.authors
    publishers := match vi.publisher with | some p => [p] | none => []
    publish_date := vi.publishedDate
    number_of_pages := vi.pageCount
    cover_url := thumbnail
    subjects := vi.categories
    description := normDescription vi.description }

/-- `fetchOpenLibraryPageCount`: the raw response value with
`data.number_of_pages || null` applied, so a `0` page count is coerced to
`none`. -/
def fetchOpenLibraryPageCount (pv : Providers) (isbn : String) : Option Int :=
  match pv.openLibraryRaw isbn with
  | some n => if n = 0 then none else some n
  | none => none

/-- The body of the `Deno.serve` handler in `isbn-lookup/index.ts`, after
the elided auth check, with `rawIsbn` the last path segment.  Returns the
JSON response together with the list of external provider calls made.
The `!result.number_of_pages` test is falsy for both `null` and `0`. -/
def isbnLookupHandler (pv : Providers) (rawIsbn : String) :
    LookupResponse × List ProviderCall :=
  if rawIsbn = "" ∨ rawIsbn = "isbn-lookup" then
    (.failure "ISBN parameter required" 400, [])
  else
    let isbn := normalizeIsbn rawIsbn
    if !(regexAllDigits isbn) then
      (.failure "Invalid ISBN: must contain only digits" 400, [])
    else
      match pv.google isbn with
      | .httpError status text =>
        (.failure ("Google Books API error (" ++ toString status ++ "): " ++ text) 502,
          [.googleBooks])
      | .ok [] => (.failure "Book not found for this ISBN" 404, [.googleBooks])
      | .ok (item :: _) =>
        let result := extractBook item isbn
        if result.number_of_pages = none ∨ result.number_of_pages = some 0 then
          match fetchOpenLibraryPageCount pv isbn with
          | some olPages =>
            (.ok { result with number_of_pages := some olPages },
              [.googleBooks, .openLibrary])
          | none => (.ok result, [.googleBooks, .openLibrary])
        else (.ok result, [.googleBooks])

/-- The resolve operation at system level: the entry store (the `books`
table) is part of the system state, but the lookup path — the client's
`lookup()` and the edge function it invokes — performs no store access at
all, so the handler result is returned unchanged for every store. -/
def resolve (store : List Entry) (pv : Providers) (rawIsbn : String) :
    LookupResponse × List ProviderCall :=
  let _ := store
  isbnLookupHandler pv rawIsbn

/- ## Page-input parsing (ProgressTracker) -/

/-- Decimal value of a digit run. -/
def digitsToNat (ds : List Char) : Nat :=
  ds.foldl (fun a c => a * 10 + (c.toNat - '0'.toNat)) 0

/-- Maximal leading digit run of `parseInt`, `none` when there is no
digit (the NaN case). -/
def jsParseIntCore (cs : List Char) : Option Int :=
  let ds := cs.takeWhile Char.isDigit
  if ds.isEmpty then none else some (digitsToNat ds)

/-- `parseInt(s, 10)`: skip leading whitespace, optional sign, then the
maximal digit run; `none` models NaN. -/
def jsParseInt (s : String) : Option Int :=
  let cs := s.data.dropWhile Char.isWhitespace
  match cs with
  | '+' :: rest => jsParseIntCore rest
  | '-' :: rest => (jsParseIntCore rest).map (fun n => -n)
  | _ => jsParseIntCore cs

/-- The regex `/^\+\s*\d+$/`: a leading `+`, optional whitespace, then
digits to the end. -/
def matchesPlusWsDigits (s : String) : Bool :=
  match s.data with
  | '+' :: rest =>
    let rest2 := rest.dropWhile Char.isWhitespace
    !rest2.isEmpty && rest2.all Char.isDigit
  | _ => false

/-- The regex `/^[\d\s+]+$/`: nonempty, every character a digit,
whitespace, or `+`. -/
def matchesDigitGroups (s : String) : Bool :=
  !s.data.isEmpty && s.data.all (fun c => c.isDigit || c.isWhitespace || c == '+')

/-- `parsePageInput(inputStr, currentPage)` from `useBookLog.js`:
`"+n"` adds to the current page, digit groups separated by `+` sum, a bare
nonnegative number is taken literally, anything else is invalid (`none`).
When the digit-group regex matches but a split part parses to NaN, control
falls through to the bare-number branch, exactly as in the source. -/
def parsePageInput (inputStr : String) (currentPage : Option Int) : Option Int :=
  let raw := jsTrim inputStr
  if raw = "" then none
  else
    let cur := currentPage.getD 0
    if matchesPlusWsDigits raw then
      match jsParseInt (String.mk ((raw.data.filter (fun c => !c.isWhitespace)).drop 1)) with
      | some delta => some (cur + delta)
      | none => none
    else
      let sumResult :=
        if matchesDigitGroups raw then
          let parts := (splitChar '+' raw.data).map (fun s => jsParseInt (jsTrim (String.mk s)))
          if parts.all Option.isSome then
            some (parts.foldl (fun a o => a + o.getD 0) 0)
          else none
        else none
      match sumResult with
      | some v => some v
      | none =>
        match jsParseInt raw with
        | some page => if 0 ≤ page then some page else none
        | none => none

/- ## Store-backed operations of the composable -/

/-- The persistent state the composable's operations touch: the `books`
table and the `progress_events` table. -/
structure DB where
  books : List Entry
  progressEvents : List ProgressEventRow
deriving DecidableEq, Repr

/-- The Supabase `.update(fields).eq("isbn", isbnVal)` pattern: apply a
field patch to every row whose `isbn` matches. -/
def updateWhere (books : List Entry) (isbnVal : String) (patch : Entry → Entry) :
    List Entry :=
  books.map (fun b => if b.isbn = isbnVal then patch b else b)

/-- `updateProgress(isbnVal, currentPageInput, currentPageCurrent)`:
parse the input against the current page; bail out silently on `null` or a
negative result; otherwise persist `current_page` and
`last_progress_date = today`.  The source writes no `progress_events`
row, so the event table is untouched.  (The client-side `inProgress`
cache refresh is presentation only and is not modelled.) -/
def updateProgress (db : DB) (isbnVal : String) (currentPageInput : String)
    (currentPageCurrent : Option Int) (today : String) : DB :=
  match parsePageInput currentPageInput (some (currentPageCurrent.getD 0)) with
  | none => db
  | some page =>
    if page < 0 then db
    else
      { db with books := updateWhere db.books isbnVal (fun b =>
          { b with current_page := some page, last_progress_date := some today }) }

/-- `startReading(isbnVal)`: one Supabase update setting exactly
`status`, `current_page` and `started_date`. -/
def startReading (books : List Entry) (isbnVal : String) (today : String) :
    List Entry :=
  updateWhere books isbnVal (fun b =>
    { b with status := some "in_progress", current_page := some 0,
             started_date := some today })

/-- `removeFromList(isbnVal)`: one Supabase update setting `status` to
null (the confirm dialog is UI and elided). -/
def removeFromList (books : List Entry) (isbnVal : String) : List Entry :=
  updateWhere books isbnVal (fun b => { b with status := none })

/-- The view-model state `confirmMarkFinished` reads and writes:
`editBook` holds the target isbn (or nothing), `finishDate` the date
string from the modal, `error` the module-level error ref. -/
structure FinishState where
  books : List Entry
  editBook : Option String
  finishDate : String
  showFinishModal : Bool
  error : Option String
deriving DecidableEq, Repr

/-- `confirmMarkFinished()`: the guard
`if (!editBook.value?.isbn || !finishDate.value) return;` silently
returns on a missing or empty isbn or an empty date; otherwise the entry
is patched to `finished` with the chosen date and the modal closes. -/
def confirmMarkFinished (st : FinishState) : FinishState :=
  match st.editBook with
  | none => st
  | some is =>
    if is = "" ∨ st.finishDate = "" then st
    else
      { st with
        books := updateWhere st.books is (fun b =>
          { b with status := some "finished", finished_date := some st.finishDate })
        showFinishModal := false
        editBook := none }

/- ## progressPercent -/

/-- JS `Math.round(num / den)` for `0 < den`, as an exact integer:
`⌊num/den + 1/2⌋` (ties round up). -/
def jsRound2 (num den : Int) : Int :=
  Int.fdiv (2 * num + den) (2 * den)

/-- `progressPercent(item)`: guard `!total || total <= 0` (falsy catches
null and 0, the comparison the negatives), else
`Math.min(100, Math.round((current / total) * 100))`. -/
def progressPercent (item : Entry) : Int :=
  let current := item.current_page.getD 0
  match item.number_of_pages with
  | none => 0
  | some total => if total ≤ 0 then 0 else min 100 (jsRound2 (current * 100) total)

/- ## Month summary -/

/-- Zero-padded two-digit rendering used in the date strings. -/
def pad2 (n : Nat) : String :=
  if n < 10 then "0" ++ toString n else toString n

/-- Gregorian leap year. -/
def isLeapYear (y : Nat) : Bool :=
  (y % 4 == 0 && y % 100 != 0) || y % 400 == 0

/-- Days in month `m` (1-based) of `year`: the source's
`new Date(year, m, 0).getDate()`. -/
def daysInMonth (year m : Nat) : Nat :=
  if m = 2 then (if isLeapYear year then 29 else 28)
  else if m = 4 ∨ m = 6 ∨ m = 9 ∨ m = 11 then 30
  else 31

/-- Both-ends-inclusive date-range test, on YYYY-MM-DD strings (their
lexicographic order is chronological, matching the `gte`/`lte` filters). -/
def dateInRange (d startD endD : String) : Bool :=
  lexLeCh startD.data d.data && lexLeCh d.data endD.data

/-- The three activity date fields of a row, each truncated to 10
characters as by `String(val).slice(0, 10)`. -/
def entryDates (b : Entry) : List String :=
  ([b.started_date, b.finished_date, b.last_progress_date].filterMap id).map
    (fun v => strTake v 10)

/-- The summary object `loadMonthSummary` builds. -/
structure MonthSummary where
  pages_read : Int
  pages_recorded : Int
  items_finished : List Entry
  dates : List String
deriving DecidableEq, Repr

/-- `loadMonthSummary(year, month)` with `month` 0-based: finished items
whose `finished_date` falls inside the month, their page sum, the
activity dates inside the month, and `pages_recorded` — which the source
hard-codes to `0` (no query of `progress_events` exists).  The `dates`
list is deduplicated; its sort order is presentational and omitted. -/
def loadMonthSummary (db : DB) (year month0 : Nat) : MonthSummary :=
  let m := month0 + 1
  let startDate := toString year ++ "-" ++ pad2 m ++ "-01"
  let endDate := toString year ++ "-" ++ pad2 m ++ "-" ++ pad2 (daysInMonth year m)
  let items := db.books.filter (fun b =>
    b.status == some "finished" &&
      (match b.finished_date with
       | some fd => dateInRange (strTake fd 10) startDate endDate
       | none => false))
  let pagesRead := (items.map (fun b => b.number_of_pages.getD 0)).sum
  let datesInMonth :=
    (db.books.foldl (fun acc b =>
      acc ++ (entryDates b).filter (fun ds => dateInRange ds startDate endDate)) []).dedup
  { pages_read := pagesRead
    pages_recorded := 0
    items_finished := items
    dates := datesInMonth }

/- ## Activity calendar -/

/-- The derived activity set of `loadActivityDates`: every
started/finished/last-progress date (truncated to 10 characters) that is
not in the future. -/
def derivedSet (docs : List Entry) (today : String) : Finset String :=
  docs.foldl (fun acc b =>
    (entryDates b).foldl (fun a ds =>
      if lexLeCh ds.data today.data then insert ds a else a) acc) ∅

/-- The override loop of `loadActivityDates`: a `show = true` row inserts
its date, a `show = false` row deletes it. -/
def applyOverrides : Finset String → List (String × Bool) → Finset String
  | base, [] => base
  | base, o :: rest =>
    applyOverrides (if o.2 then insert o.1 base else base.erase o.1) rest

/-- The effective activity set `loadActivityDates` stores into
`activityDates` (the source keeps it as a sorted array; only membership is
ever consumed, so the set is the faithful observable). -/
def loadActivityDatesSet (docs : List Entry) (ovr : List (String × Bool))
    (today : String) : Finset String :=
  applyOverrides (derivedSet docs today) ovr

/-- The Supabase `upsert({date, show}, {onConflict: "date"})`: replace the
row with this date if present, else append it. -/
def upsertOverride (ovr : List (String × Bool)) (d : String) (v : Bool) :
    List (String × Bool) :=
  if ovr.any (fun o => o.1 = d) then
    ovr.map (fun o => if o.1 = d then (d, v) else o)
  else ovr ++ [(d, v)]

/-- State read and written by the calendar toggle: the `books` rows (for
the derived dates), the `calendar_overrides` rows, and the client's
`activityDates` cache. -/
structure CalState where
  docs : List Entry
  overrides : List (String × Bool)
  activityDates : Finset String

/-- `toggleCalendarDay(dateStr)`: read the cached effective membership,
upsert an override with the opposite boolean, then reload
`activityDates`. -/
def toggleCalendarDay (st : CalState) (today dateStr : String) : CalState :=
  let currentlyActive := decide (dateStr ∈ st.activityDates)
  let ovr := upsertOverride st.overrides dateStr (!currentlyActive)
  { st with overrides := ovr
            activityDates := loadActivityDatesSet st.docs ovr today }

/- ## Backlog reordering -/

/-- `backlogSectionType(item)`: articles and poems by tag, everything
else a book. -/
def backlogSectionType (b : Entry) : String :=
  if b.entry_type = some "article" then "article"
  else if b.entry_type = some "poem" then "poem"
  else "book"

/-- The filter behind `backlogArticles` / `backlogPoems` /
`backlogBooks`, selected the way the reorder functions do: any
`sectionType` other than `"article"` or `"poem"` selects the books
section, whose predicate is `!b.entry_type || b.entry_type === "book"`. -/
def sectionFilter (ty : String) (b : Entry) : Bool :=
  if ty = "article" then b.entry_type == some "article"
  else if ty = "poem" then b.entry_type == some "poem"
  else jsFalsyStr b.entry_type || b.entry_type == some "book"

/-- `mergeBacklogOrder(fullList, newSectionItems, sectionType)`: walk the
full backlog and replace the items of the section, in order, by the
reordered section items.  Every caller passes exactly as many replacement
items as the section holds; on an exhausted replacement list (where the
source's `newSectionItems[j++]` would be `undefined`) the original item
is kept. -/
def mergeBacklogOrder (fullList : List Entry) (repl : List Entry) (ty : String) :
    List Entry :=
  match fullList with
  | [] => []
  | item :: rest =>
    if backlogSectionType item = ty then
      match repl with
      | r :: rs => r :: mergeBacklogOrder rest rs ty
      | [] => item :: mergeBacklogOrder rest [] ty
    else item :: mergeBacklogOrder rest repl ty

/-- The write-back of a reorder: `fullOrder.map((item, idx) => update
backlog_order = idx)` followed by `loadBacklog()`'s
`order by backlog_order` — each entry receives its full-list index
(starting at `start`) as its new `backlog_order`. -/
def assignOrders (l : List Entry) (start : Nat) : List Entry :=
  match l with
  | [] => []
  | b :: rest => { b with backlog_order := some start } :: assignOrders rest (start + 1)

/-- `moveBacklogItemToPosition(isbnVal, sectionType, newPosition)`:
locate the entry inside its section, clamp the 1-based target position to
the section bounds, reinsert, merge the section back into the full
backlog and reindex every entry with its full-list index.  Returns the
backlog list as `loadBacklog` would reload it; the unchanged list on the
early-return paths. -/
def moveBacklogItemToPosition (backlog : List Entry) (isbnVal ty : String)
    (newPosition : Int) : List Entry :=
  let sectionItems := backlog.filter (sectionFilter ty)
  match sectionItems.findIdx? (fun i => i.isbn == isbnVal) with
  | none => backlog
  | some currentIndex =>
    let newIndex := (max 0 (min ((sectionItems.length : Int) - 1) (newPosition - 1))).toNat
    if newIndex = currentIndex then backlog
    else
      match sectionItems.get? currentIndex with
      | none => backlog
      | some removed =>
        let reordered := (sectionItems.eraseIdx currentIndex).insertIdx newIndex removed
        assignOrders (mergeBacklogOrder backlog reordered ty) 0

/- ## Concrete fixtures used by counterexamples and witnesses -/

/-- A blank entry, the base for the concrete fixtures below. -/
def baseEntry (i : String) : Entry :=
  { isbn := i
    entry_type := none
    title := ""
    authors := []
    status := none
    backlog_order := none
    backlog_date := none
    started_date := none
    finished_date := none
    last_progress_date := none
    current_page := none
    number_of_pages := none }

/-- A Google Books item for the fixture provider. -/
def gItem1 : GoogleVolumeInfo :=
  { title := some "Example Book"
    authors := ["Jane Roe"]
    publisher := some "Pub"
    thumbnail := none
    smallThumbnail := none
    categories := []
    pageCount := some 320
    publishedDate := some "2001"
    description := none }

/-- A fixture provider pair: Google Books answers every query with
`gItem1`; Open Library is never needed. -/
def pv1 : Providers :=
  { google := fun _ => .ok [gItem1], openLibraryRaw := fun _ => none }

/-- A store already holding a record for ISBN 9780140328721. -/
def store1 : List Entry :=
  [{ baseEntry "9780140328721" with title := "Cached Title", number_of_pages := some 200 }]

/-- An in-progress entry at page 100. -/
def pe : Entry :=
  { baseEntry "9780000000001" with status := some "in_progress", current_page := some 100 }

/-- A database holding `pe` and no progress events. -/
def db2 : DB := { books := [pe], progressEvents := [] }

/-- Backlog fixture: two books around an article, orders 0, 1, 2. -/
def exA : Entry := { baseEntry "aa" with status := some "backlog", backlog_order := some 0 }

/-- Backlog fixture: the article between the two books. -/
def exB : Entry :=
  { baseEntry "bb" with
    entry_type := some "article"
    status := some "backlog"
    backlog_order := some 1 }

/-- Backlog fixture: the second book. -/
def exC : Entry := { baseEntry "cc" with status := some "backlog", backlog_order := some 2 }

/-- A three-entry backlog: book, article, book. -/
def ex3 : List Entry := [exA, exB, exC]

/-- A backlog entry with progress already recorded: page 50, order 3. -/
def sb : Entry :=
  { baseEntry "ss" with
    status := some "backlog"
    backlog_order := some 3
    current_page := some 50 }

/-- A backlog entry with dates and progress, used for the removal claim. -/
def rb : Entry :=
  { baseEntry "rr" with
    status := some "backlog"
    backlog_order := some 2
    backlog_date := some "2026-01-01"
    current_page := some 10 }

/-- A finish-modal state whose date input is empty. -/
def fs0 : FinishState :=
  { books := [sb]
    editBook := some "ss"
    finishDate := ""
    showFinishModal := true
    error := none }

/-- Calendar docs fixture: one entry started on 2026-10-01. -/
def calDocs : List Entry := [{ baseEntry "kk" with started_date := some "2026-10-01" }]

/-- Calendar state fixture: no overrides, cache freshly loaded. -/
def cal0 : CalState :=
  { docs := calDocs
    overrides := []
    activityDates := loadActivityDatesSet calDocs [] "2026-10-11" }

/-- Progress-percent fixture: 160 of 320 pages. -/
def e10 : Entry :=
  { baseEntry "ii" with current_page := some 160, number_of_pages := some 320 }

/-!
## Theorems
-/

/-- C7: parsePageInput satisfies the spec's test vectors:
`"+20"` against current page 144 yields 164; `"144+20"` yields 164 for
every current page; `"abc"` and `"-5"` are invalid. -/
theorem C7_parse_page_input_vectors :
    parsePageInput "+20" (some 144) = some 164 ∧
    (∀ p : Option Int, parsePageInput "144+20" p = some 164) ∧
    parsePageInput "abc" (some 10) = none ∧
    parsePageInput "-5" (some 10) = none := by
  refine ⟨rfl, fun p => rfl, rfl, rfl⟩

/-- C10: progressPercent always lies in 0..100 (for the data model's
nonnegative current page): it is 0 when the page count is absent, zero or
negative, and otherwise the rounded percentage capped at 100. -/
theorem C10_progress_percent_range (e : Entry) (h : 0 ≤ e.current_page.getD 0) :
    0 ≤ progressPercent e ∧ progressPercent e ≤ 100 ∧
    ((e.number_of_pages = none ∨ ∃ t, e.number_of_pages = some t ∧ t ≤ 0) →
      progressPercent e = 0) ∧
    (∀ t, e.number_of_pages = some t → 0 < t →
      progressPercent e = min 100 (jsRound2 (e.current_page.getD 0 * 100) t)) := by
  cases hn : e.number_of_pages with
  | none =>
    have hv : progressPercent e = 0 := by simp [progressPercent, hn]
    refine ⟨by rw [hv], by rw [hv]; norm_num, fun _ => hv, ?_⟩
    intro t2 ht2 hpos
    exact absurd ht2 (by simp)
  | some t =>
    by_cases ht : t ≤ 0
    · have hv : progressPercent e = 0 := by simp [progressPercent, hn, ht]
      refine ⟨by rw [hv], by rw [hv]; norm_num, fun _ => hv, ?_⟩
      intro t2 ht2 hpos
      injection ht2 with he2
      omega
    · have hnum : 0 ≤ e.current_page.getD 0 * 100 := by
        have h100 : (0 : Int) ≤ 100 := by norm_num
        exact mul_nonneg h h100
      have h0 : 0 ≤ jsRound2 (e.current_page.getD 0 * 100) t := by
        unfold jsRound2
        apply Int.fdiv_nonneg <;> omega
      have hv : progressPercent e = min 100 (jsRound2 (e.current_page.getD 0 * 100) t) := by
        simp [progressPercent, hn, ht]
      refine ⟨?_, ?_, ?_, ?_⟩
      · rw [hv]
        exact le_min (by norm_num) h0
      · rw [hv]
        exact min_le_left _ _
      · intro hc
        rcases hc with hc | ⟨t2, ht2, hle⟩
        · exact absurd hc (by simp)
        · injection ht2 with he2
          omega
      · intro t2 ht2 hpos
        injection ht2 with he2
        rw [← he2]
        exact hv

/-- C10 witness: 160 of 320 pages gives a percentage inside the range. -/
theorem C10_progress_percent_range_witness :
    0 ≤ progressPercent e10 ∧ progressPercent e10 ≤ 100 ∧
    ((e10.number_of_pages = none ∨ ∃ t, e10.number_of_pages = some t ∧ t ≤ 0) →
      progressPercent e10 = 0) ∧
    (∀ t, e10.number_of_pages = some t → 0 < t →
      progressPercent e10 = min 100 (jsRound2 (e10.current_page.getD 0 * 100) t)) :=
  C10_progress_percent_range e10 (by decide)

/-- C4 counterexample: starting to read the backlog entry `sb` (current
page 50, backlog order 3) overwrites the nonzero `current_page` with 0 —
the claim says a nonzero page is preserved — and leaves `backlog_order`
at 3 instead of clearing it. -/
theorem C4_counterexample :
    sb.current_page = some 50 ∧ sb.backlog_order = some 3 ∧
    startReading [sb] "ss" "2026-10-11" =
      [{ sb with
          status := some "in_progress"
          current_page := some 0
          started_date := some "2026-10-11" }] ∧
    (startReading [sb] "ss" "2026-10-11").map Entry.current_page = [some 0] ∧
    (startReading [sb] "ss" "2026-10-11").map Entry.backlog_order = [some 3] ∧
    (some 0 : Option Int) ≠ some 50 ∧ (some 3 : Option Nat) ≠ none :=
  ⟨rfl, rfl, rfl, rfl, rfl, by decide, by decide⟩

/-- C4 (amended): startReading sets `started_date = today`, sets
`status = in_progress`, unconditionally resets `current_page` to 0 (a
nonzero page is overwritten), and leaves `backlog_order` and every other
field unchanged; entries with another isbn are untouched. -/
theorem C4_start_reading_effect (books : List Entry) (isbnVal today : String)
    (i : Nat) (b : Entry) (hb : books.get? i = some b) :
    (b.isbn = isbnVal →
      (startReading books isbnVal today).get? i =
        some { b with
               status := some "in_progress"
               current_page := some 0
               started_date := some today }) ∧
    (b.isbn ≠ isbnVal → (startReading books isbnVal today).get? i = some b) := by
  unfold startReading updateWhere
  rw [List.get?_map, hb]
  constructor <;> intro h <;> simp [h]

/-- C4 witness: the amended effect at the concrete fixture. -/
theorem C4_start_reading_effect_witness :
    (startReading [sb] "ss" "2026-10-11").get? 0 =
      some { sb with
             status := some "in_progress"
             current_page := some 0
             started_date := some "2026-10-11" } :=
  (C4_start_reading_effect [sb] "ss" "2026-10-11" 0 sb rfl).1 rfl

/-- C5 counterexample: confirming a finish with an empty date leaves the
whole state unchanged — including `error = none` and the still-open
modal — so no ValidationError (no error of any kind) is surfaced,
contrary to the claim. -/
theorem C5_counterexample :
    fs0.finishDate = "" ∧ confirmMarkFinished fs0 = fs0 ∧
    (confirmMarkFinished fs0).error = none ∧
    (confirmMarkFinished fs0).showFinishModal = true ∧
    (confirmMarkFinished fs0).books.map Entry.status = [some "backlog"] :=
  ⟨rfl, rfl, rfl, rfl, rfl⟩

/-- C5 (amended): attempting the transition to finished without a date
(or without a target isbn) is silently ignored: the guard returns with no
mutation at all — the entry's status is unchanged, but no ValidationError
is raised (the state, including the error field, is identical). -/
theorem C5_missing_date_silent (st : FinishState)
    (h : st.editBook = none ∨ st.editBook = some "" ∨ st.finishDate = "") :
    confirmMarkFinished st = st := by
  rcases h with h | h | h
  · simp [confirmMarkFinished, h]
  · simp [confirmMarkFinished, h]
  · cases he : st.editBook with
    | none => simp [confirmMarkFinished, he]
    | some is => simp [confirmMarkFinished, he, h]

/-- C5 witness: the silent no-op at the concrete modal state. -/
theorem C5_missing_date_silent_witness : confirmMarkFinished fs0 = fs0 :=
  C5_missing_date_silent fs0 (Or.inr (Or.inr rfl))

/-- C6 counterexample: removing `rb` (backlog order 2) from its list sets
`status` to null but leaves `backlog_order = 2` — the claim says the
transition to none clears `backlog_order` as well. -/
theorem C6_counterexample :
    rb.backlog_order = some 2 ∧
    removeFromList [rb] "rr" = [{ rb with status := none }] ∧
    (removeFromList [rb] "rr").map Entry.backlog_order = [some 2] ∧
    (some 2 : Option Nat) ≠ none :=
  ⟨rfl, rfl, rfl, by decide⟩

/-- C6 (amended): the transition to none clears `status` only:
`backlog_order`, all lifecycle dates, `current_page` and every other
field are left unchanged, and entries with another isbn are untouched. -/
theorem C6_remove_effect (books : List Entry) (isbnVal : String) (i : Nat)
    (b : Entry) (hb : books.get? i = some b) :
    (b.isbn = isbnVal →
      (removeFromList books isbnVal).get? i = some { b with status := none }) ∧
    (b.isbn ≠ isbnVal → (removeFromList books isbnVal).get? i = some b) := by
  unfold removeFromList updateWhere
  rw [List.get?_map, hb]
  constructor <;> intro h <;> simp [h]

/-- C6 witness: the amended effect at the concrete fixture. -/
theorem C6_remove_effect_witness :
    (removeFromList [rb] "rr").get? 0 = some { rb with status := none } :=
  (C6_remove_effect [rb] "rr" 0 rb rfl).1 rfl

/-- C2: recording progress from page 100 to page 80 persists
`current_page = 80` and `last_progress_date = today`, but appends no
ProgressEvent whatsoever (the `progress_events` table defined by the
migration is never written by any code path), and the month summary's
`pages_recorded` is hard-coded to 0 — so the delta of -20 the claim
requires is neither recorded nor counted. -/
theorem C2_no_progress_event_at_failing_input :
    updateProgress db2 "9780000000001" "80" (some 100) "2026-10-11" =
      { books := [{ pe with
                      current_page := some 80
                      last_progress_date := some "2026-10-11" }]
        progressEvents := [] } ∧
    (loadMonthSummary
        (updateProgress db2 "9780000000001" "80" (some 100) "2026-10-11")
        2026 9).pages_recorded = 0 ∧
    (updateProgress db2 "9780000000001" "80" (some 100) "2026-10-11").progressEvents
      = [] :=
  ⟨rfl, rfl, rfl⟩

/-- C1 counterexample: the store already holds a record for ISBN
9780140328721 (title "Cached Title"), yet resolve still calls the primary
provider and returns the provider's record ("Example Book") — the cache
hit does not short-circuit the external call, because no code path of the
lookup pipeline ever reads the entry store. -/
theorem C1_counterexample :
    store1.any (fun e => e.isbn == "9780140328721") = true ∧
    normalizeIsbn "9780140328721" = "9780140328721" ∧
    (resolve store1 pv1 "9780140328721").2 = [ProviderCall.googleBooks] ∧
    (resolve store1 pv1 "9780140328721").1 =
      LookupResponse.ok (extractBook gItem1 "9780140328721") ∧
    (extractBook gItem1 "9780140328721").title = "Example Book" ∧
    store1.map Entry.title = ["Cached Title"] :=
  ⟨rfl, rfl, rfl, rfl, rfl, rfl⟩

/-- C1 (amended): for every syntactically valid identifier, resolve calls
the primary provider (Google Books) first — regardless of the entry
store's contents, which the lookup path never consults: the result is
identical for any two stores. -/
theorem C1_resolve_always_calls_primary (store store2 : List Entry)
    (pv : Providers) (raw : String)
    (h1 : ¬ (raw = "" ∨ raw = "isbn-lookup"))
    (h2 : regexAllDigits (normalizeIsbn raw) = true) :
    (resolve store pv raw).2.head? = some ProviderCall.googleBooks ∧
    resolve store pv raw = resolve store2 pv raw := by
  constructor
  · show (isbnLookupHandler pv raw).2.head? = some ProviderCall.googleBooks
    unfold isbnLookupHandler
    rw [if_neg h1]
    rw [if_neg (by simp [h2])]
    split
    · rfl
    · rfl
    · dsimp only
      split
      · split
        · rfl
        · rfl
      · rfl
  · rfl

/-- C1 witness: the amended statement at the concrete fixture. -/
theorem C1_resolve_always_calls_primary_witness :
    (resolve store1 pv1 "9780140328721").2.head? = some ProviderCall.googleBooks ∧
    resolve store1 pv1 "9780140328721" = resolve [] pv1 "9780140328721" :=
  C1_resolve_always_calls_primary store1 [] pv1 "9780140328721" (by decide) (by decide)

/-- C9 counterexample: the purely numeric identifier "12345" has only 5
digits, yet the resolver does not fail with an invalid-identifier error:
it proceeds to the provider lookup and returns a record.  The ≥10-digit
requirement is not enforced by the lookup handler. -/
theorem C9_counterexample :
    normalizeIsbn "12345" = "12345" ∧
    ("12345" : String).length = 5 ∧
    regexAllDigits "12345" = true ∧
    (resolve store1 pv1 "12345").2 = [ProviderCall.googleBooks] ∧
    (resolve store1 pv1 "12345").1 = LookupResponse.ok (extractBook gItem1 "12345") :=
  ⟨rfl, rfl, rfl, rfl, rfl⟩

/-- C9 (amended): resolve strips whitespace and hyphens and the handler
rejects an identifier exactly when the normalized form is empty or not
purely numeric (with a 400 invalid-ISBN error and no provider call); the
≥10-digit minimum is enforced only by the client-side submit guard
`canSubmit`, which requires the normalized identifier to be at least 10
characters and purely numeric. -/
theorem C9_validation_split (store : List Entry) (pv : Providers) (raw : String)
    (h1 : ¬ (raw = "" ∨ raw = "isbn-lookup"))
    (h2 : regexAllDigits (normalizeIsbn raw) = false) :
    resolve store pv raw =
      (LookupResponse.failure "Invalid ISBN: must contain only digits" 400, []) ∧
    (canSubmit raw = true ↔
      10 ≤ (normalizeIsbn raw).length ∧
      (normalizeIsbn raw).data.all Char.isDigit = true) := by
  constructor
  · show isbnLookupHandler pv raw = _
    unfold isbnLookupHandler
    rw [if_neg h1]
    rw [if_pos (by simp [h2])]
  · unfold canSubmit regexAllDigits
    constructor
    · intro hc
      simp only [Bool.and_eq_true, decide_eq_true_eq] at hc
      exact ⟨hc.1, hc.2.2⟩
    · rintro ⟨hl, hd⟩
      have hlen : (normalizeIsbn raw).data.length = (normalizeIsbn raw).length := rfl
      have hne : (normalizeIsbn raw).data.isEmpty = false := by
        cases hdata : (normalizeIsbn raw).data with
        | nil =>
          rw [hdata] at hlen
          simp at hlen
          omega
        | cons a t => rfl
      simp [hl, hne, hd]

/-- Mapping a function that fixes every element of a list is the
identity. -/
theorem map_eq_self_of_eq_id {α : Type} (l : List α) (f : α → α)
    (h : ∀ a ∈ l, f a = a) : l.map f = l := by
  induction l with
  | nil => rfl
  | cons a t ih =>
    rw [List.map_cons, h a (by simp), ih (fun b hb => h b (by simp [hb]))]

/-- Override rows whose key differs from `d` do not change `d`'s
membership in the applied set. -/
theorem mem_applyOverrides_of_not_key (base : Finset String)
    (ovr : List (String × Bool)) (d : String) (h : ∀ o ∈ ovr, o.1 ≠ d) :
    (d ∈ applyOverrides base ovr ↔ d ∈ base) := by
  induction ovr generalizing base with
  | nil => exact Iff.rfl
  | cons o rest ih =>
    have ho : o.1 ≠ d := h o (by simp)
    have hrest : ∀ o2 ∈ rest, o2.1 ≠ d := fun o2 h2 => h o2 (by simp [h2])
    show d ∈ applyOverrides (if o.2 then insert o.1 base else base.erase o.1) rest ↔ _
    rw [ih _ hrest]
    cases hov : o.2 with
    | true => simp [Finset.mem_insert, Ne.symm ho]
    | false => simp [Finset.mem_erase, Ne.symm ho]

/-- Upserting key `d` commutes with a head row of a different key. -/
theorem upsert_cons_ne (o : String × Bool) (ovr : List (String × Bool))
    (d : String) (v : Bool) (h : o.1 ≠ d) :
    upsertOverride (o :: ovr) d v = o :: upsertOverride ovr d v := by
  unfold upsertOverride
  cases ha : ovr.any (fun x => x.1 = d) with
  | true => simp [List.any_cons, h, ha]
  | false => simp [List.any_cons, h, ha]

/-- When the head row holds key `d` and no later row does, the upsert
replaces the head row in place. -/
theorem upsert_replace (o : String × Bool) (rest : List (String × Bool))
    (d : String) (v : Bool) (ho : o.1 = d)
    (hkey : ∀ o2 ∈ rest, o2.1 ≠ d) :
    upsertOverride (o :: rest) d v = (d, v) :: rest := by
  unfold upsertOverride
  have hany : (o :: rest).any (fun x => x.1 = d) = true := by
    simp [List.any_cons, ho]
  rw [hany]
  simp only [if_true]
  rw [List.map_cons, if_pos ho]
  congr 1
  exact map_eq_self_of_eq_id rest _ (fun o2 h2 => by rw [if_neg (hkey o2 h2)])

/-- After an upsert of key `d`, `d`'s membership in the applied set is
exactly the upserted boolean (keys must be unique, as the table's primary
key guarantees). -/
theorem mem_applyOverrides_upsert (base : Finset String)
    (ovr : List (String × Bool)) (d : String) (v : Bool)
    (hnd : (ovr.map Prod.fst).Nodup) :
    (d ∈ applyOverrides base (upsertOverride ovr d v) ↔ v = true) := by
  induction ovr generalizing base with
  | nil =>
    show d ∈ applyOverrides base [(d, v)] ↔ v = true
    show d ∈ applyOverrides (if v then insert d base else base.erase d) [] ↔ v = true
    cases v with
    | true => simp [applyOverrides]
    | false => simp [applyOverrides]
  | cons o rest ih =>
    rw [List.map_cons, List.nodup_cons] at hnd
    obtain ⟨hno, hndr⟩ := hnd
    by_cases ho : o.1 = d
    · have hkey : ∀ o2 ∈ rest, o2.1 ≠ d := by
        intro o2 h2 he
        exact hno (by rw [ho, ← he]; exact List.mem_map_of_mem Prod.fst h2)
      rw [upsert_replace o rest d v ho hkey]
      show d ∈ applyOverrides (if v then insert d base else base.erase d) rest ↔ v = true
      rw [mem_applyOverrides_of_not_key _ rest d hkey]
      cases v with
      | true => simp
      | false => simp
    · rw [upsert_cons_ne o rest d v ho]
      show d ∈ applyOverrides (if o.2 then insert o.1 base else base.erase o.1)
        (upsertOverride rest d v) ↔ v = true
      exact ih _ hndr

/-- After an upsert of key `d`, the first row with key `d` is exactly the
upserted pair. -/
theorem find_upsert (ovr : List (String × Bool)) (d : String) (v : Bool)
    (hnd : (ovr.map Prod.fst).Nodup) :
    (upsertOverride ovr d v).find? (fun o => o.1 = d) = some (d, v) := by
  induction ovr with
  | nil =>
    show List.find? (fun o => o.1 = d) [(d, v)] = some (d, v)
    simp
  | cons o rest ih =>
    rw [List.map_cons, List.nodup_cons] at hnd
    obtain ⟨hno, hndr⟩ := hnd
    by_cases ho : o.1 = d
    · have hkey : ∀ o2 ∈ rest, o2.1 ≠ d := by
        intro o2 h2 he
        exact hno (by rw [ho, ← he]; exact List.mem_map_of_mem Prod.fst h2)
      rw [upsert_replace o rest d v ho hkey]
      simp
    · rw [upsert_cons_ne o rest d v ho]
      rw [List.find?_cons_of_neg _ (by simp [ho])]
      exact ih hndr

/-- Upserting preserves uniqueness of the override keys. -/
theorem upsert_keys_nodup (ovr : List (String × Bool)) (d : String) (v : Bool)
    (hnd : (ovr.map Prod.fst).Nodup) :
    ((upsertOverride ovr d v).map Prod.fst).Nodup := by
  unfold upsertOverride
  cases ha : ovr.any (fun x => x.1 = d) with
  | true =>
    rw [if_pos rfl]
    have hmap : (ovr.map (fun o => if o.1 = d then (d, v) else o)).map Prod.fst
        = ovr.map Prod.fst := by
      rw [List.map_map]
      apply List.map_congr_left
      intro o ho
      by_cases h2 : o.1 = d
      · simp [h2]
      · simp [h2]
    rw [hmap]
    exact hnd
  | false =>
    rw [if_neg Bool.false_ne_true]
    rw [List.map_append, List.nodup_append]
    refine ⟨hnd, by simp, ?_⟩
    intro x hx hx2
    simp at hx2
    rw [List.mem_map] at hx
    obtain ⟨o, hom, hofst⟩ := hx
    rw [List.any_eq_false] at ha
    exact ha o hom (by simp [hofst, hx2])

/-- C9 witness: the amended statement at a non-numeric identifier. -/
theorem C9_validation_split_witness :
    resolve store1 pv1 "abc-def" =
      (LookupResponse.failure "Invalid ISBN: must contain only digits" 400, []) ∧
    (canSubmit "abc-def" = true ↔
      10 ≤ (normalizeIsbn "abc-def").length ∧
      (normalizeIsbn "abc-def").data.all Char.isDigit = true) :=
  C9_validation_split store1 pv1 "abc-def" (by decide) (by decide)

/-- C8: with unique override keys (the table's primary key) and a freshly
loaded `activityDates` cache, toggling a date writes an override equal to
the negation of the date's current effective membership, flips the
effective membership, and toggling again writes the opposite boolean and
restores the pre-toggle effective membership. -/
theorem C8_toggle_double_flip (st : CalState) (today d : String)
    (hnd : (st.overrides.map Prod.fst).Nodup)
    (hsync : st.activityDates = loadActivityDatesSet st.docs st.overrides today) :
    ((toggleCalendarDay st today d).overrides.find? (fun o => o.1 = d) =
      some (d, !(decide (d ∈ loadActivityDatesSet st.docs st.overrides today)))) ∧
    ((d ∈ (toggleCalendarDay st today d).activityDates) ↔
      ¬ (d ∈ loadActivityDatesSet st.docs st.overrides today)) ∧
    ((toggleCalendarDay (toggleCalendarDay st today d) today d).overrides.find?
        (fun o => o.1 = d) =
      some (d, decide (d ∈ loadActivityDatesSet st.docs st.overrides today))) ∧
    ((d ∈ (toggleCalendarDay (toggleCalendarDay st today d) today d).activityDates) ↔
      d ∈ st.activityDates) := by
  have e0 : decide (d ∈ st.activityDates)
      = decide (d ∈ loadActivityDatesSet st.docs st.overrides today) := by
    rw [hsync]
  have h1ovr : (toggleCalendarDay st today d).overrides
      = upsertOverride st.overrides d (!(decide (d ∈ st.activityDates))) := rfl
  have hnd1 : ((toggleCalendarDay st today d).overrides.map Prod.fst).Nodup := by
    rw [h1ovr]
    exact upsert_keys_nodup st.overrides d _ hnd
  have part2 : (d ∈ (toggleCalendarDay st today d).activityDates) ↔
      ¬ (d ∈ loadActivityDatesSet st.docs st.overrides today) := by
    show d ∈ loadActivityDatesSet st.docs
      (upsertOverride st.overrides d (!(decide (d ∈ st.activityDates)))) today ↔ _
    unfold loadActivityDatesSet
    rw [mem_applyOverrides_upsert _ _ _ _ hnd]
    rw [e0]
    cases hm : decide (d ∈ loadActivityDatesSet st.docs st.overrides today) with
    | true =>
      simp only [Bool.not_true]
      constructor
      · intro hf
        exact absurd hf Bool.false_ne_true
      · intro hf
        exact absurd (of_decide_eq_true hm) hf
    | false =>
      simp only [Bool.not_false]
      constructor
      · intro _
        exact of_decide_eq_false hm
      · intro _
        trivial
  have cur1 : decide (d ∈ (toggleCalendarDay st today d).activityDates)
      = !(decide (d ∈ loadActivityDatesSet st.docs st.overrides today)) := by
    rw [decide_eq_decide.mpr part2]
    rw [decide_not]
  refine ⟨?_, part2, ?_, ?_⟩
  · rw [h1ovr, e0]
    exact find_upsert st.overrides d _ hnd
  · have h2ovr : (toggleCalendarDay (toggleCalendarDay st today d) today d).overrides
        = upsertOverride (toggleCalendarDay st today d).overrides d
            (!(decide (d ∈ (toggleCalendarDay st today d).activityDates))) := rfl
    rw [h2ovr, cur1, Bool.not_not]
    exact find_upsert _ d _ hnd1
  · show d ∈ loadActivityDatesSet (toggleCalendarDay st today d).docs
      (upsertOverride (toggleCalendarDay st today d).overrides d
        (!(decide (d ∈ (toggleCalendarDay st today d).activityDates)))) today ↔ _
    unfold loadActivityDatesSet
    rw [mem_applyOverrides_upsert _ _ _ _ hnd1]
    rw [cur1, Bool.not_not]
    rw [hsync]
    exact ⟨of_decide_eq_true, decide_eq_true⟩

/-- C8 witness: the toggle at a concrete one-entry calendar. -/
theorem C8_toggle_double_flip_witness :
    ((toggleCalendarDay cal0 "2026-10-11" "2026-10-01").overrides.find?
        (fun o => o.1 = "2026-10-01") =
      some ("2026-10-01",
        !(decide ("2026-10-01" ∈ loadActivityDatesSet cal0.docs cal0.overrides "2026-10-11")))) ∧
    (("2026-10-01" ∈ (toggleCalendarDay cal0 "2026-10-11" "2026-10-01").activityDates) ↔
      ¬ ("2026-10-01" ∈ loadActivityDatesSet cal0.docs cal0.overrides "2026-10-11")) ∧
    ((toggleCalendarDay (toggleCalendarDay cal0 "2026-10-11" "2026-10-01")
        "2026-10-11" "2026-10-01").overrides.find? (fun o => o.1 = "2026-10-01") =
      some ("2026-10-01",
        decide ("2026-10-01" ∈ loadActivityDatesSet cal0.docs cal0.overrides "2026-10-11"))) ∧
    (("2026-10-01" ∈ (toggleCalendarDay (toggleCalendarDay cal0 "2026-10-11" "2026-10-01")
        "2026-10-11" "2026-10-01").activityDates) ↔
      "2026-10-01" ∈ cal0.activityDates) :=
  C8_toggle_double_flip cal0 "2026-10-11" "2026-10-01" (by decide) rfl

/-- Inserting at an in-bounds index is a permutation of consing. -/
theorem perm_insertIdx {α : Type} (n : Nat) (x : α) (l : List α)
    (h : n ≤ l.length) : List.Perm (l.insertIdx n x) (x :: l) := by
  induction n generalizing l with
  | zero => rw [List.insertIdx_zero]
  | succ n ih =>
    cases l with
    | nil => exact absurd h (by simp)
    | cons a t =>
      rw [List.insertIdx_succ_cons]
      have h2 : n ≤ t.length := by simpa using h
      exact ((ih t h2).cons a).trans (List.Perm.swap x a t)

/-- Consing the removed element back onto an eraseIdx is a permutation of
the original list. -/
theorem perm_cons_eraseIdx {α : Type} (l : List α) (i : Nat) (x : α)
    (h : l.get? i = some x) : List.Perm (x :: l.eraseIdx i) l := by
  induction l generalizing i with
  | nil => exact absurd h (by simp)
  | cons a t ih =>
    cases i with
    | zero =>
      have hx : a = x := by simpa using h
      rw [← hx]
      exact List.Perm.refl _
    | succ i =>
      have h2 : t.get? i = some x := by simpa using h
      exact (List.Perm.swap a x _).trans ((ih i h2).cons a)

/-- Splitting a list by a boolean predicate and reassembling is a
permutation. -/
theorem perm_filter_not_append {α : Type} (p : α → Bool) (l : List α) :
    List.Perm (l.filter (fun a => !(p a)) ++ l.filter p) l := by
  induction l with
  | nil => exact List.Perm.refl []
  | cons a t ih =>
    cases hp : p a with
    | true =>
      simp [List.filter_cons, hp]
      exact List.perm_middle.trans (ih.cons a)
    | false =>
      simp [List.filter_cons, hp]
      exact ih

/-- The merge step of a reorder: replacing the section items in place, in
order, yields a permutation of the non-section items followed by the
replacement list, provided the replacement has exactly as many items as
the section. -/
theorem mergeBacklogOrder_perm (ty : String) :
    ∀ (full repl : List Entry),
    full.countP (fun b => decide (backlogSectionType b = ty)) = repl.length →
    List.Perm (mergeBacklogOrder full repl ty)
      (full.filter (fun b => !(decide (backlogSectionType b = ty))) ++ repl) := by
  intro full
  induction full with
  | nil =>
    intro repl h
    rw [List.countP_nil] at h
    have hrepl : repl = [] := List.eq_nil_of_length_eq_zero h.symm
    subst hrepl
    exact List.Perm.refl _
  | cons item rest ih =>
    intro repl h
    rw [List.countP_cons] at h
    by_cases hm : backlogSectionType item = ty
    · have hd : decide (backlogSectionType item = ty) = true := decide_eq_true hm
      rw [hd] at h
      simp at h
      cases repl with
      | nil => simp at h
      | cons r rs =>
        have h2 : rest.countP (fun b => decide (backlogSectionType b = ty)) = rs.length := by
          simp at h
          omega
        have hmerge : mergeBacklogOrder (item :: rest) (r :: rs) ty
            = r :: mergeBacklogOrder rest rs ty := by
          simp only [mergeBacklogOrder]
          rw [if_pos hm]
        have hfil : (item :: rest).filter (fun b => !(decide (backlogSectionType b = ty)))
            = rest.filter (fun b => !(decide (backlogSectionType b = ty))) := by
          rw [List.filter_cons]
          simp [hd]
        rw [hmerge, hfil]
        exact ((ih rs h2).cons r).trans List.perm_middle.symm
    · have hd : decide (backlogSectionType item = ty) = false := decide_eq_false hm
      rw [hd] at h
      simp at h
      have hmerge : mergeBacklogOrder (item :: rest) repl ty
          = item :: mergeBacklogOrder rest repl ty := by
        simp only [mergeBacklogOrder]
        rw [if_neg hm]
      have hfil : (item :: rest).filter (fun b => !(decide (backlogSectionType b = ty)))
          = item :: rest.filter (fun b => !(decide (backlogSectionType b = ty))) := by
        rw [List.filter_cons]
        simp [hd]
      rw [hmerge, hfil, List.cons_append]
      exact (ih repl h).cons item

/-- The reindex write-back stamps consecutive indices as the new
`backlog_order` values. -/
theorem assignOrders_map_order (l : List Entry) (s : Nat) :
    (assignOrders l s).map Entry.backlog_order = (List.range' s l.length).map some := by
  induction l generalizing s with
  | nil => rfl
  | cons b t ih =>
    show ({ b with backlog_order := some s } :: assignOrders t (s + 1)).map _ = _
    rw [List.map_cons, ih (s + 1), List.length_cons, List.range'_succ, List.map_cons]

/-- The reindex write-back does not change which entry sits where. -/
theorem assignOrders_map_isbn (l : List Entry) (s : Nat) :
    (assignOrders l s).map Entry.isbn = l.map Entry.isbn := by
  induction l generalizing s with
  | nil => rfl
  | cons b t ih =>
    show ({ b with backlog_order := some s } :: assignOrders t (s + 1)).map _ = _
    rw [List.map_cons, ih (s + 1), List.map_cons]

/-- For the entry kinds that actually occur and the section names the UI
uses, the section filter coincides with membership by
`backlogSectionType`. -/
theorem sectionFilter_eq (ty : String) (b : Entry)
    (hb : b.entry_type = none ∨ b.entry_type = some "book" ∨
      b.entry_type = some "article" ∨ b.entry_type = some "poem")
    (hty : ty = "book" ∨ ty = "article" ∨ ty = "poem") :
    sectionFilter ty b = decide (backlogSectionType b = ty) := by
  rcases hty with h | h | h <;> subst h <;>
    rcases hb with h2 | h2 | h2 | h2 <;>
      simp [sectionFilter, backlogSectionType, jsFalsyStr, h2]

/-- C3 counterexample: in the backlog [book aa, article bb, book cc],
moving book cc to position 1 reindexes over the full list, so the book
partition (2 entries) ends with order values {0, 2} instead of the dense
{0, 1} the claim requires. -/
theorem C3_counterexample :
    ((moveBacklogItemToPosition ex3 "cc" "book" 1).filter (sectionFilter "book")).length
      = 2 ∧
    ((moveBacklogItemToPosition ex3 "cc" "book" 1).filter (sectionFilter "book")).map
        Entry.backlog_order = [some 0, some 2] ∧
    ([some 0, some 2] : List (Option Nat)) ≠ [some 0, some 1] :=
  ⟨rfl, rfl, by decide⟩

/-- C3 (amended): a reorder either leaves the backlog unchanged (the
early-return paths) or reassigns `backlog_order` as the index in the
full backlog list — the values 0..N-1 are dense and duplicate-free across
the whole backlog (hence duplicate-free, but not necessarily dense,
within each kind partition) — while preserving exactly the same set of
entries. -/
theorem C3_reindex_full_list (backlog : List Entry) (isbnVal ty : String)
    (pos : Int)
    (hwf : ∀ b ∈ backlog, b.entry_type = none ∨ b.entry_type = some "book" ∨
      b.entry_type = some "article" ∨ b.entry_type = some "poem")
    (hty : ty = "book" ∨ ty = "article" ∨ ty = "poem") :
    moveBacklogItemToPosition backlog isbnVal ty pos = backlog ∨
    ((moveBacklogItemToPosition backlog isbnVal ty pos).map Entry.backlog_order =
        (List.range' 0 backlog.length).map some ∧
      List.Perm ((moveBacklogItemToPosition backlog isbnVal ty pos).map Entry.isbn)
        (backlog.map Entry.isbn)) := by
  simp only [moveBacklogItemToPosition]
  cases hF : (backlog.filter (sectionFilter ty)).findIdx? (fun i => i.isbn == isbnVal) with
  | none => exact Or.inl rfl
  | some curIdx =>
    dsimp only
    split
    · exact Or.inl rfl
    · cases hG : (backlog.filter (sectionFilter ty)).get? curIdx with
      | none => exact Or.inl rfl
      | some removed =>
        right
        have hidx : curIdx < (backlog.filter (sectionFilter ty)).length :=
          (List.get?_eq_some.mp hG).choose
        have hle : ((max 0 (min (((backlog.filter (sectionFilter ty)).length : Int) - 1)
            (pos - 1))).toNat) ≤ (backlog.filter (sectionFilter ty)).length - 1 := by
          omega
        have hlen_erase : ((backlog.filter (sectionFilter ty)).eraseIdx curIdx).length
            = (backlog.filter (sectionFilter ty)).length - 1 :=
          List.length_eraseIdx_of_lt hidx
        have hpermR : List.Perm
            (((backlog.filter (sectionFilter ty)).eraseIdx curIdx).insertIdx
              ((max 0 (min (((backlog.filter (sectionFilter ty)).length : Int) - 1)
                (pos - 1))).toNat) removed)
            (backlog.filter (sectionFilter ty)) := by
          refine (perm_insertIdx _ removed _ ?_).trans
            (perm_cons_eraseIdx _ curIdx removed hG)
          rw [hlen_erase]
          exact hle
        have hfil_eq : backlog.filter (sectionFilter ty)
            = backlog.filter (fun b => decide (backlogSectionType b = ty)) :=
          List.filter_congr (fun a ha => by rw [sectionFilter_eq ty a (hwf a ha) hty])
        have hcount : backlog.countP (fun b => decide (backlogSectionType b = ty))
            = (((backlog.filter (sectionFilter ty)).eraseIdx curIdx).insertIdx
              ((max 0 (min (((backlog.filter (sectionFilter ty)).length : Int) - 1)
                (pos - 1))).toNat) removed).length := by
          rw [hpermR.length_eq, List.countP_eq_length_filter, ← hfil_eq]
        have hperm_full : List.Perm
            (mergeBacklogOrder backlog
              (((backlog.filter (sectionFilter ty)).eraseIdx curIdx).insertIdx
                ((max 0 (min (((backlog.filter (sectionFilter ty)).length : Int) - 1)
                  (pos - 1))).toNat) removed) ty)
            backlog := by
          refine (mergeBacklogOrder_perm ty backlog _ hcount).trans ?_
          have hR2 : List.Perm
              (((backlog.filter (sectionFilter ty)).eraseIdx curIdx).insertIdx
                ((max 0 (min (((backlog.filter (sectionFilter ty)).length : Int) - 1)
                  (pos - 1))).toNat) removed)
              (backlog.filter (fun b => decide (backlogSectionType b = ty))) := by
            rw [← hfil_eq]
            exact hpermR
          exact (List.Perm.append_left _ hR2).trans
            (perm_filter_not_append (fun b => decide (backlogSectionType b = ty)) backlog)
        constructor
        · rw [assignOrders_map_order, hperm_full.length_eq]
        · rw [assignOrders_map_isbn]
          exact hperm_full.map Entry.isbn

/-- C3 witness: the amended statement at the concrete three-entry
backlog. -/
theorem C3_reindex_full_list_witness :
    moveBacklogItemToPosition ex3 "cc" "book" 1 = ex3 ∨
    ((moveBacklogItemToPosition ex3 "cc" "book" 1).map Entry.backlog_order =
        (List.range' 0 ex3.length).map some ∧
      List.Perm ((moveBacklogItemToPosition ex3 "cc" "book" 1).map Entry.isbn)
        (ex3.map Entry.isbn)) :=
  C3_reindex_full_list ex3 "cc" "book" 1 (by decide) (by decide)

end BookLog
